import Mathlib

/-!
Verification of the pose-with-uncertainty algebra of Kimera-RPGO
(src/RobustPGO/utils/geometry_utils.h), instantiated at the 3D pose type
(gtsam::Pose3) with exact rational scalars in place of IEEE doubles.

The rotation component is an orthogonal 3 by 3 rational matrix, the
translation a rational 3-vector, and covariance matrices are 6 by 6
rational matrices ordered rotation-block first, matching the block layout
used by the source (getRotationDim = 3 first, getTranslationDim = 3 last).

The composition, inversion and between Jacobians returned by the gtsam
calls pose.compose(other, Ha, Hb), pose.inverse(Ha) and
pose.between(other, Ha, Hb) follow the gtsam LieGroup semantics:
  compose: Ha = Ad(other.inverse), Hb = identity
  inverse: Ha = -Ad(pose)
  between: Ha = -Ad(result.inverse), Hb = identity
where Ad is the SE(3) adjoint [[R, 0], [skew(t) R, R]] acting on rotation
first tangent coordinates.

Eigen LLT success (info() != NumericalIssue) is modelled by the exact
pivot recursion of the Cholesky factorisation: it succeeds iff every
pivot (Schur complement diagonal head) is strictly positive, which is
exactly the condition checked by the Eigen unblocked kernel.

For the degenerate-covariance edge case of the BetweenFactor constructor,
scalars are modelled by the type FP of IEEE special values (finite
rational, NaN, plus or minus infinity) so that the isnan test of the
source is expressible.
-/

open Matrix

abbrev Mat3 : Type := Matrix (Fin 3) (Fin 3) ℚ

abbrev Mat6 : Type := Matrix (Fin 6) (Fin 6) ℚ

/-- A rotation: an orthogonal rational 3 by 3 matrix (transpose is a left
inverse); models the gtsam::Rot3 component of gtsam::Pose3. -/
def RotM : Type := {M : Mat3 // M.transpose * M = 1}

/-- Product of two rotations. -/
def rmul (A B : RotM) : RotM :=
  ⟨A.val * B.val, by
    rw [Matrix.transpose_mul, Matrix.mul_assoc, ← Matrix.mul_assoc A.val.transpose,
      A.prop, Matrix.one_mul, B.prop]⟩

/-- Inverse of a rotation (its transpose). -/
def rinv (A : RotM) : RotM :=
  ⟨A.val.transpose, by rw [Matrix.transpose_transpose, Matrix.mul_eq_one_comm.mp A.prop]⟩

/-- The identity rotation. -/
def rone : RotM := ⟨1, by rw [Matrix.transpose_one, Matrix.one_mul]⟩

/-- A rigid 3D transform: rotation plus translation; models gtsam::Pose3. -/
@[ext] structure Pose3Q where
  rot : RotM
  trans : Fin 3 → ℚ

/-- gtsam::Pose3::compose: (R1, t1) * (R2, t2) = (R1 R2, t1 + R1 t2). -/
def Pose3Q.comp (p q : Pose3Q) : Pose3Q :=
  ⟨rmul p.rot q.rot, p.trans + p.rot.val *ᵥ q.trans⟩

/-- gtsam::Pose3::inverse: (R, t) maps to (Rᵀ, -(Rᵀ t)). -/
def Pose3Q.inv (p : Pose3Q) : Pose3Q :=
  ⟨rinv p.rot, -(p.rot.val.transpose *ᵥ p.trans)⟩

/-- The identity transform. -/
def Pose3Q.one : Pose3Q := ⟨rone, 0⟩

/-- gtsam::Pose3::between: g.between(h) = g.inverse * h. -/
def Pose3Q.between (p q : Pose3Q) : Pose3Q := (p.inv).comp q

/-- Skew-symmetric cross-product matrix of a 3-vector:
rows (0, -t2, t1), (t2, 0, -t0), (-t1, t0, 0). -/
def skew (t : Fin 3 → ℚ) : Mat3 := fun i j =>
  if i = 0 ∧ j = 1 then -(t 2) else if i = 0 ∧ j = 2 then t 1
  else if i = 1 ∧ j = 0 then t 2 else if i = 1 ∧ j = 2 then -(t 0)
  else if i = 2 ∧ j = 0 then -(t 1) else if i = 2 ∧ j = 1 then t 0 else 0

/-- Lower Fin 6 index into the rotation block. -/
def lo3 (i : Fin 6) (h : i.val < 3) : Fin 3 := ⟨i.val, h⟩

/-- Upper Fin 6 index into the translation block. -/
def hi3 (i : Fin 6) (_h : ¬ i.val < 3) : Fin 3 :=
  ⟨i.val - 3, by have := i.isLt; omega⟩

/-- Assemble a 6 by 6 matrix from four 3 by 3 blocks (rotation block first). -/
def blk6 (A B C D : Mat3) : Mat6 := fun i j =>
  if hi : i.val < 3 then
    if hj : j.val < 3 then A (lo3 i hi) (lo3 j hj) else B (lo3 i hi) (hi3 j hj)
  else
    if hj : j.val < 3 then C (hi3 i hi) (lo3 j hj) else D (hi3 i hi) (hi3 j hj)

/-- gtsam::Pose3::AdjointMap in rotation-first tangent coordinates:
[[R, 0], [skew(t) R, R]]. -/
def Adj (p : Pose3Q) : Mat6 :=
  blk6 p.rot.val 0 (skew p.trans * p.rot.val) p.rot.val

/-- Jacobian of composition with respect to the first operand, as returned
through Ha by the gtsam call pose.compose(other, Ha, Hb): Ad(other.inverse). -/
def composeJacFst (_g h : Pose3Q) : Mat6 := Adj (Pose3Q.inv h)

/-- Jacobian of composition with respect to the second operand, as returned
through Hb by the gtsam call pose.compose(other, Ha, Hb): the identity. -/
def composeJacSnd (_g _h : Pose3Q) : Mat6 := 1

/-- gtsam compose with Jacobians: result pose and the two Jacobians. -/
def composeH (g h : Pose3Q) : Pose3Q × Mat6 × Mat6 :=
  (g.comp h, composeJacFst g h, composeJacSnd g h)

/-- Jacobian of inversion as returned through Ha by pose.inverse(Ha). -/
def inverseJac (g : Pose3Q) : Mat6 := -Adj g

/-- gtsam inverse with Jacobian. -/
def inverseH (g : Pose3Q) : Pose3Q × Mat6 := (g.inv, inverseJac g)

/-- Jacobian of between with respect to the first operand, as returned
through Ha by pose.between(other, Ha, Hb): -Ad(result.inverse). -/
def betweenJacFst (g h : Pose3Q) : Mat6 := -Adj (Pose3Q.inv (Pose3Q.between g h))

/-- gtsam between with Jacobians. -/
def betweenH (g h : Pose3Q) : Pose3Q × Mat6 × Mat6 :=
  (Pose3Q.between g h, betweenJacFst g h, 1)

/-- geometry_utils.h lines 56-170: a pose and its covariance. -/
structure PoseWithCovariance where
  pose : Pose3Q
  covariance_matrix : Mat6

/-- Lines 63-69: default constructor, identity pose and all-zero covariance. -/
def PoseWithCovariance.defaultCtor : PoseWithCovariance := ⟨Pose3Q.one, 0⟩

/-- Lines 78-86: construction from a gtsam prior factor: the prior value as
pose and an all-zero covariance. -/
def PoseWithCovariance.fromPrior (p : Pose3Q) : PoseWithCovariance := ⟨p, 0⟩

/-- Lines 112-121: compose, with first-order covariance propagation
Ha * cov_A * Haᵀ + Hb * cov_B * Hbᵀ. -/
def PoseWithCovariance.compose (A B : PoseWithCovariance) : PoseWithCovariance :=
  ⟨(composeH A.pose B.pose).1,
    (composeH A.pose B.pose).2.1 * A.covariance_matrix * (composeH A.pose B.pose).2.1.transpose +
      (composeH A.pose B.pose).2.2 * B.covariance_matrix * (composeH A.pose B.pose).2.2.transpose⟩

/-- Lines 125-132: inverse, with covariance Ha * cov * Haᵀ. -/
def PoseWithCovariance.inverse (A : PoseWithCovariance) : PoseWithCovariance :=
  ⟨(inverseH A.pose).1,
    (inverseH A.pose).2 * A.covariance_matrix * (inverseH A.pose).2.transpose⟩

/-- One step of the Cholesky pivot recursion: the Schur complement of the
leading entry. -/
def schurC {n : ℕ} (M : Matrix (Fin (n + 1)) (Fin (n + 1)) ℚ) : Matrix (Fin n) (Fin n) ℚ :=
  fun i j => M i.succ j.succ - M i.succ 0 * M 0 j.succ / M 0 0

/-- Success of the Eigen LLT factorisation (info() != NumericalIssue):
every Cholesky pivot is strictly positive.  The Eigen unblocked kernel
fails exactly when some pivot x satisfies x <= 0. -/
def lltOk : (n : ℕ) → Matrix (Fin n) (Fin n) ℚ → Bool
  | 0, _ => true
  | n + 1, M => if M 0 0 ≤ 0 then false else lltOk n (schurC M)

/-- Lines 142-143: the covariance first computed by between:
cov_B - Ha * cov_A * Haᵀ. -/
def betweenCovPrimary (A B : PoseWithCovariance) : Mat6 :=
  B.covariance_matrix -
    (betweenH A.pose B.pose).2.1 * A.covariance_matrix * (betweenH A.pose B.pose).2.1.transpose

/-- Lines 152-154: the fallback covariance computed when the Cholesky check
fails, using the Jacobian of the opposite-direction between:
cov_A - Ha * cov_B * Haᵀ with Ha from other.pose.between(pose). -/
def betweenCovFallback (A B : PoseWithCovariance) : Mat6 :=
  A.covariance_matrix -
    (betweenH B.pose A.pose).2.1 * B.covariance_matrix * (betweenH B.pose A.pose).2.1.transpose

/-- Lines 136-163: between.  The pose is always the forward relative
transform; the covariance is the primary difference when its Cholesky
factorisation succeeds and otherwise the fallback difference.  The source
computes a second Cholesky factorisation of the fallback covariance but
its result is discarded (the warning on lines 158-160 is commented out). -/
def PoseWithCovariance.between (A B : PoseWithCovariance) : PoseWithCovariance :=
  ⟨(betweenH A.pose B.pose).1,
    if lltOk 6 (betweenCovPrimary A B) then betweenCovPrimary A B else betweenCovFallback A B⟩

/-- Rendering of the specification sentence for between: on Cholesky
failure, recompute the relative transform in the opposite direction
(between(B, A)) and invert it, covariance included.  Stated from the
specification wording, for comparison with the source behaviour. -/
def PoseWithCovariance.betweenSpec (A B : PoseWithCovariance) : PoseWithCovariance :=
  if lltOk 6 (betweenCovPrimary A B) then
    ⟨(betweenH A.pose B.pose).1, betweenCovPrimary A B⟩
  else
    PoseWithCovariance.inverse ⟨(betweenH B.pose A.pose).1, betweenCovPrimary B A⟩

/-- Positive semi-definiteness of a rational 6 by 6 matrix: symmetric with
nonnegative quadratic form. -/
def PSDQ (M : Mat6) : Prop :=
  M.transpose = M ∧ ∀ x : Fin 6 → ℚ, 0 ≤ x ⬝ᵥ (M *ᵥ x)

/-- Cast a rational matrix to a real matrix (the source stores doubles). -/
def qMatToR (M : Mat6) : Matrix (Fin 6) (Fin 6) ℝ := M.map (fun q => (q : ℝ))

/-- Lines 165-169: the Mahalanobis norm sqrt(logᵀ * inverse(cov) * log),
parameterised (as the C++ template is) over the Logmap of the pose type. -/
noncomputable def PoseWithCovariance.norm (L : Pose3Q → Fin 6 → ℝ)
    (A : PoseWithCovariance) : ℝ :=
  Real.sqrt (L A.pose ⬝ᵥ ((qMatToR A.covariance_matrix)⁻¹ *ᵥ L A.pose))

/-- The Mahalanobis norm of a vector against a covariance, stated from the
specification wording. -/
noncomputable def mahalanobisNorm (v : Fin 6 → ℝ) (S : Matrix (Fin 6) (Fin 6) ℝ) : ℝ :=
  Real.sqrt (v ⬝ᵥ (S⁻¹ *ᵥ v))

/-- The Euclidean norm of a 6-vector, through the L2 space structure. -/
noncomputable def euclideanNormR6 (v : Fin 6 → ℝ) : ℝ :=
  norm ((WithLp.equiv 2 (Fin 6 → ℝ)).symm v)

/-- The Euclidean norm of a rational 3-vector (Eigen .norm()). -/
noncomputable def transNormQ (t : Fin 3 → ℚ) : ℝ :=
  Real.sqrt (∑ i : Fin 3, ((t i : ℝ)) ^ 2)

/-- The Euclidean norm of a real 3-vector, through the L2 space structure. -/
noncomputable def euclideanNormR3 (v : Fin 3 → ℝ) : ℝ :=
  norm ((WithLp.equiv 2 (Fin 3 → ℝ)).symm v)

/-- geometry_utils.h lines 177-243: a pose and its accumulated distance. -/
structure PoseWithDistance where
  pose : Pose3Q
  distance : ℝ

/-- Lines 184-187: default constructor. -/
def PoseWithDistance.defaultCtor : PoseWithDistance := ⟨Pose3Q.one, 0⟩

/-- Lines 196-200: construction from a gtsam prior factor: distance 0. -/
def PoseWithDistance.fromPrior (p : Pose3Q) : PoseWithDistance := ⟨p, 0⟩

/-- Lines 210-216: compose; the distance grows by the Euclidean norm of the
translation of the second operand. -/
noncomputable def PoseWithDistance.compose (A B : PoseWithDistance) : PoseWithDistance :=
  ⟨A.pose.comp B.pose, A.distance + transNormQ B.pose.trans⟩

/-- Lines 220-226: inverse; the distance is unchanged. -/
def PoseWithDistance.inverse (A : PoseWithDistance) : PoseWithDistance :=
  ⟨A.pose.inv, A.distance⟩

/-- Lines 230-236: between; the distance is the absolute difference. -/
noncomputable def PoseWithDistance.between (A B : PoseWithDistance) : PoseWithDistance :=
  ⟨A.pose.between B.pose, |B.distance - A.distance|⟩

/-- Lines 238-242: sqrt(logᵀ * log) / distance, Logmap-parameterised. -/
noncomputable def PoseWithDistance.norm (L : Pose3Q → Fin 6 → ℝ)
    (D : PoseWithDistance) : ℝ :=
  Real.sqrt (L D.pose ⬝ᵥ L D.pose) / D.distance

/-- Model of an IEEE double restricted to the observations the source makes:
a finite rational value, NaN, or a signed infinity. -/
inductive FP : Type
  | fin (q : ℚ)
  | nan
  | pinf
  | ninf
deriving DecidableEq

/-- IEEE addition on the special-value model. -/
def FP.add : FP → FP → FP
  | FP.nan, _ => FP.nan
  | _, FP.nan => FP.nan
  | FP.pinf, FP.ninf => FP.nan
  | FP.ninf, FP.pinf => FP.nan
  | FP.pinf, _ => FP.pinf
  | _, FP.pinf => FP.pinf
  | FP.ninf, _ => FP.ninf
  | _, FP.ninf => FP.ninf
  | FP.fin a, FP.fin b => FP.fin (a + b)

/-- std::isnan. -/
def FP.isnan : FP → Bool
  | FP.nan => true
  | _ => false

/-- Finiteness of a modelled double. -/
def FP.isFinite : FP → Bool
  | FP.fin _ => true
  | _ => false

/-- A 6 by 6 matrix of modelled doubles. -/
abbrev MatF6 : Type := Fin 6 → Fin 6 → FP

/-- Line 98: the trace of the leading 3 by 3 rotation block,
covar.block(0,0,r_dim,r_dim).trace(), summed left to right. -/
def traceRot (M : MatF6) : FP :=
  FP.add (FP.add (M 0 0) (M 1 1)) (M 2 2)

/-- Lines 100-103: the matrix that keeps only the translation block:
zero everywhere except the trailing 3 by 3 block, copied from the input. -/
def zeroKeepTrans (M : MatF6) : MatF6 := fun i j =>
  if 3 ≤ i.val ∧ 3 ≤ j.val then M i j else FP.fin 0

/-- Lines 94-106: the covariance stored by the BetweenFactor constructor:
if the rotation-block trace is NaN only the translation block is kept,
otherwise the input covariance is stored unchanged. -/
def sanitizeBetweenCov (M : MatF6) : MatF6 :=
  if (traceRot M).isnan then zeroKeepTrans M else M

/-- The pose-with-covariance structure over modelled doubles, as produced
by the BetweenFactor constructor. -/
structure PoseWithCovarianceF where
  pose : Pose3Q
  covariance_matrix : MatF6

/-- Lines 89-108: construction from a gtsam between factor: the measured
pose, and the noise covariance after the NaN-trace edge-case handling. -/
def fromBetweenF (measured : Pose3Q) (cov : MatF6) : PoseWithCovarianceF :=
  ⟨measured, sanitizeBetweenCov cov⟩

/-- A covariance whose rotation block has trace plus-infinity (non-finite
but not NaN): diagonal 1 except entry (0,0) which is plus-infinity. -/
def covPinf : MatF6 := fun i j =>
  if i = 0 ∧ j = 0 then FP.pinf else if i = j then FP.fin 1 else FP.fin 0

/-- A covariance whose rotation block has trace NaN: diagonal 1 except
entry (0,0) which is NaN. -/
def covNan : MatF6 := fun i j =>
  if i = 0 ∧ j = 0 then FP.nan else if i = j then FP.fin 1 else FP.fin 0

/-- Modelled from the spec: the loadGraph acceptance pipeline of the PCM
outlier filter (RobustPGO/RobustPGO.h and RobustPGO/pcm/pcm.h are not part
of the sources).  Per sections 4.2/4.3 of the specification, the trajectory
store is built by appending each odometry edge, so an odometry candidate
compared against the trajectory-implied relative pose over its own interval
has residual norm 0 and is accepted exactly when 0 <= odomThreshold; a
loop-closure candidate with residual Mahalanobis norm r against the
trajectory-implied relative pose is admitted exactly when r <= lcThreshold;
the accepted factor set is the prior plus the accepted odometry edges plus
the admitted loop closures.  Returns (total accepted factors, admitted
loop closures); numOdom is the number of odometry edges and lcResiduals
the residual norms of the offered loop-closure candidates. -/
def loadGraphCounts (numOdom : ℕ) (lcResiduals : List ℚ) (odomT lcT : ℚ) : ℕ × ℕ :=
  let odomAccepted := if (0 : ℚ) ≤ odomT then numOdom else 0
  let lcAccepted := (lcResiduals.filter (fun r => decide (r ≤ lcT))).length
  (1 + odomAccepted + lcAccepted, lcAccepted)

/-- Concrete first operand for the between fallback analysis: identity pose,
covariance 4 times the identity. -/
def cexA : PoseWithCovariance := ⟨Pose3Q.one, Matrix.diagonal (fun _ => 4)⟩

/-- Concrete second operand for the between fallback analysis: unit
translation along the first axis, identity covariance. -/
def cexB : PoseWithCovariance := ⟨⟨rone, fun i => if i = 0 then 1 else 0⟩, 1⟩

/-- Concrete pose-with-covariance with PSD covariance (the zero matrix). -/
def psdA : PoseWithCovariance := ⟨Pose3Q.one, 0⟩

/-- A rotation is also a right inverse of its transpose. -/
theorem rot_mul_transpose (R : RotM) : R.val * R.val.transpose = 1 :=
  Matrix.mul_eq_one_comm.mp R.prop

/-- Composing a pose with its inverse yields the identity transform. -/
theorem comp_inv_cancel (p : Pose3Q) : p.comp p.inv = Pose3Q.one := by
  apply Pose3Q.ext
  · show rmul p.rot (rinv p.rot) = rone
    exact Subtype.ext (rot_mul_transpose p.rot)
  · show p.trans + p.rot.val *ᵥ -(p.rot.val.transpose *ᵥ p.trans) = 0
    rw [Matrix.mulVec_neg, Matrix.mulVec_mulVec, rot_mul_transpose, Matrix.one_mulVec]
    exact add_neg_cancel p.trans

/-- The between of a pose with a composition onto itself recovers the
relative pose: between(p, p * r) = r. -/
theorem between_comp_cancel (p r : Pose3Q) : Pose3Q.between p (p.comp r) = r := by
  apply Pose3Q.ext
  · show rmul (rinv p.rot) (rmul p.rot r.rot) = r.rot
    apply Subtype.ext
    show p.rot.val.transpose * (p.rot.val * r.rot.val) = r.rot.val
    rw [← Matrix.mul_assoc, p.rot.prop, Matrix.one_mul]
  · show -(p.rot.val.transpose *ᵥ p.trans) +
      p.rot.val.transpose *ᵥ (p.trans + p.rot.val *ᵥ r.trans) = r.trans
    rw [Matrix.mulVec_add, Matrix.mulVec_mulVec, p.rot.prop, Matrix.one_mulVec]
    exact neg_add_cancel_left _ _

/-- Conjugation preserves positive semi-definiteness: if S is PSD so is
B * S * Bᵀ. -/
theorem psdq_conj (B : Mat6) {S : Mat6} (h : PSDQ S) : PSDQ (B * S * B.transpose) := by
  constructor
  · rw [Matrix.transpose_mul, Matrix.transpose_mul, Matrix.transpose_transpose,
      h.1, Matrix.mul_assoc]
  · intro x
    have hx : x ⬝ᵥ ((B * S * B.transpose) *ᵥ x) =
        (B.transpose *ᵥ x) ⬝ᵥ (S *ᵥ (B.transpose *ᵥ x)) := by
      rw [← Matrix.mulVec_mulVec, ← Matrix.mulVec_mulVec, Matrix.dotProduct_mulVec,
        Matrix.mulVec_transpose]
    rw [hx]
    exact h.2 (B.transpose *ᵥ x)

/-- The sum of two PSD matrices is PSD. -/
theorem psdq_add {S T : Mat6} (hS : PSDQ S) (hT : PSDQ T) : PSDQ (S + T) := by
  constructor
  · rw [Matrix.transpose_add, hS.1, hT.1]
  · intro x
    rw [Matrix.add_mulVec, Matrix.dotProduct_add]
    exact add_nonneg (hS.2 x) (hT.2 x)

/-- The zero matrix is PSD. -/
theorem psdq_zero : PSDQ (0 : Mat6) := by
  constructor
  · exact Matrix.transpose_zero
  · intro x
    rw [Matrix.zero_mulVec, Matrix.dotProduct_zero]

/-- Claim C1: for every pair of PoseWithCovariance values A and B,
compose(A, B) returns the chained pose A * B together with the covariance
J_A * cov_A * J_Aᵀ + J_B * cov_B * J_Bᵀ, where J_A and J_B are the
Jacobians of pose composition with respect to each operand evaluated at
A.pose and B.pose. -/
theorem compose_propagates_covariance (A B : PoseWithCovariance) :
    (A.compose B).pose = A.pose.comp B.pose ∧
      (A.compose B).covariance_matrix =
        composeJacFst A.pose B.pose * A.covariance_matrix *
            (composeJacFst A.pose B.pose).transpose +
          composeJacSnd A.pose B.pose * B.covariance_matrix *
            (composeJacSnd A.pose B.pose).transpose :=
  ⟨rfl, rfl⟩

/-- Claim C6: between(A, compose(A, r)) recovers the pose component of r
exactly, for all covariance matrices of A and r. -/
theorem between_compose_recovers_relative (A r : PoseWithCovariance) :
    (A.between (A.compose r)).pose = r.pose := by
  show Pose3Q.between A.pose (A.pose.comp r.pose) = r.pose
  exact between_comp_cancel A.pose r.pose

/-- Claim C7: for every PoseWithCovariance A whose covariance satisfies the
data-model invariant of being positive semi-definite, compose(A, inverse(A))
yields the identity transform exactly, and its propagated covariance is
positive semi-definite. -/
theorem compose_inverse_identity_psd (A : PoseWithCovariance)
    (h : PSDQ A.covariance_matrix) :
    (A.compose A.inverse).pose = Pose3Q.one ∧
      PSDQ (A.compose A.inverse).covariance_matrix := by
  constructor
  · show A.pose.comp A.pose.inv = Pose3Q.one
    exact comp_inv_cancel A.pose
  · show PSDQ
      (composeJacFst A.pose A.pose.inv * A.covariance_matrix *
          (composeJacFst A.pose A.pose.inv).transpose +
        composeJacSnd A.pose A.pose.inv *
            (inverseJac A.pose * A.covariance_matrix * (inverseJac A.pose).transpose) *
          (composeJacSnd A.pose A.pose.inv).transpose)
    apply psdq_add
    · exact psdq_conj _ h
    · show PSDQ (1 * (inverseJac A.pose * A.covariance_matrix *
        (inverseJac A.pose).transpose) * (1 : Mat6).transpose)
      rw [Matrix.one_mul, Matrix.transpose_one, Matrix.mul_one]
      exact psdq_conj _ h

/-- Witness for claim C7 at a concrete input: the identity pose with the
all-zero (positive semi-definite) covariance. -/
theorem compose_inverse_identity_psd_witness :
    (psdA.compose psdA.inverse).pose = Pose3Q.one ∧
      PSDQ (psdA.compose psdA.inverse).covariance_matrix :=
  compose_inverse_identity_psd psdA psdq_zero

/-- The first Cholesky pivot of the primary between covariance at the
concrete inputs cexA, cexB is negative. -/
theorem betweenPivotNeg : betweenCovPrimary cexA cexB 0 0 = -3 := by
  simp +decide [betweenCovPrimary, betweenH, betweenJacFst, Pose3Q.between, Pose3Q.comp,
    Pose3Q.inv, rmul, rinv, rone, Pose3Q.one, Adj, blk6, skew, lo3, hi3, cexA, cexB,
    Matrix.mul_apply, Matrix.sub_apply, Matrix.neg_apply, Matrix.transpose_apply,
    Fin.sum_univ_six, Matrix.one_apply, Matrix.diagonal_apply]
  norm_num

/-- The Cholesky check of the primary between covariance fails at the
concrete inputs cexA, cexB, so the fallback branch is taken. -/
theorem betweenLltFails : lltOk 6 (betweenCovPrimary cexA cexB) = false := by
  have h : lltOk 6 (betweenCovPrimary cexA cexB) =
      if betweenCovPrimary cexA cexB 0 0 ≤ 0 then false
      else lltOk 5 (schurC (betweenCovPrimary cexA cexB)) := rfl
  rw [h, betweenPivotNeg, if_pos (by norm_num)]

/-- Entry (1, 5) of the covariance that the source computes in the fallback
branch of between at the concrete inputs. -/
theorem betweenEntryCode :
    (PoseWithCovariance.between cexA cexB).covariance_matrix 1 5 = -1 := by
  show (if lltOk 6 (betweenCovPrimary cexA cexB) then betweenCovPrimary cexA cexB
    else betweenCovFallback cexA cexB) 1 5 = -1
  rw [betweenLltFails]
  show betweenCovFallback cexA cexB 1 5 = -1
  simp +decide [betweenCovFallback, betweenH, betweenJacFst, Pose3Q.between, Pose3Q.comp,
    Pose3Q.inv, rmul, rinv, rone, Pose3Q.one, Adj, blk6, skew, lo3, hi3, cexA, cexB,
    Matrix.mul_apply, Matrix.sub_apply, Matrix.neg_apply, Matrix.transpose_apply,
    Fin.sum_univ_six, Matrix.one_apply, Matrix.diagonal_apply]

/-- Entry (1, 5) of the covariance prescribed by the specification wording
(recompute between(B, A) and invert) at the same concrete inputs. -/
theorem betweenEntrySpec :
    (PoseWithCovariance.betweenSpec cexA cexB).covariance_matrix 1 5 = -4 := by
  show (if lltOk 6 (betweenCovPrimary cexA cexB) then
      (⟨(betweenH cexA.pose cexB.pose).1, betweenCovPrimary cexA cexB⟩ : PoseWithCovariance)
    else PoseWithCovariance.inverse
      ⟨(betweenH cexB.pose cexA.pose).1, betweenCovPrimary cexB cexA⟩).covariance_matrix 1 5 = -4
  rw [betweenLltFails]
  show (PoseWithCovariance.inverse
      ⟨(betweenH cexB.pose cexA.pose).1, betweenCovPrimary cexB cexA⟩).covariance_matrix 1 5 = -4
  simp +decide [PoseWithCovariance.inverse, inverseH, inverseJac, betweenCovPrimary,
    betweenH, betweenJacFst, Pose3Q.between, Pose3Q.comp,
    Pose3Q.inv, rmul, rinv, rone, Pose3Q.one, Adj, blk6, skew, lo3, hi3, cexA, cexB,
    Matrix.mul_apply, Matrix.sub_apply, Matrix.neg_apply, Matrix.transpose_apply,
    Fin.sum_univ_six, Matrix.one_apply, Matrix.diagonal_apply]
  norm_num

/-- Counterexample to claim C2: at the concrete inputs cexA, cexB the
primary Cholesky check fails, and the result of the source between differs
from recomputing the relative transform in the opposite direction and
inverting it (the specification wording): the source keeps the forward
pose and only replaces the covariance with
cov_A - Ha * cov_B * Haᵀ, without applying the inversion Jacobian, so the
two covariances disagree (entry (1,5): -1 against -4). -/
theorem between_fallback_cex :
    lltOk 6 (betweenCovPrimary cexA cexB) = false ∧
      (PoseWithCovariance.between cexA cexB).covariance_matrix 1 5 = -1 ∧
      (PoseWithCovariance.betweenSpec cexA cexB).covariance_matrix 1 5 = -4 ∧
      (PoseWithCovariance.between cexA cexB).covariance_matrix ≠
        (PoseWithCovariance.betweenSpec cexA cexB).covariance_matrix := by
  refine ⟨betweenLltFails, betweenEntryCode, betweenEntrySpec, fun h => ?_⟩
  have h15 := congrFun (congrFun h 1) 5
  rw [betweenEntryCode, betweenEntrySpec] at h15
  norm_num at h15

/-- Claim C2 (amended): between(A, B) computes the forward relative pose
and the covariance cov_B - Ha * cov_A * Haᵀ, checks it with a Cholesky
factorisation, and on failure replaces only the covariance by
cov_A - Ha * cov_B * Haᵀ with the opposite-direction Jacobian — this
equals the primary covariance of between(B, A), with no inversion Jacobian
applied and the pose left as the forward between; the second Cholesky
check is computed but its diagnostic is disabled in the source, and the
computation proceeds regardless. -/
theorem between_fallback_amended (A B : PoseWithCovariance) :
    (A.between B).pose = Pose3Q.between A.pose B.pose ∧
      (A.between B).covariance_matrix =
        (if lltOk 6 (betweenCovPrimary A B) then betweenCovPrimary A B
          else betweenCovFallback A B) ∧
      betweenCovFallback A B = betweenCovPrimary B A :=
  ⟨rfl, rfl, rfl⟩

/-- Counterexample to claim C3: covPinf has a rotation block whose trace is
non-finite (plus-infinity) yet not NaN, so the source stores the covariance
unchanged and its rotation block is not zeroed. -/
theorem betweenFactor_nonfinite_trace_cex :
    (traceRot covPinf).isFinite = false ∧
      (fromBetweenF Pose3Q.one covPinf).covariance_matrix = covPinf ∧
      (fromBetweenF Pose3Q.one covPinf).covariance_matrix 0 0 ≠ FP.fin 0 := by
  decide

/-- Claim C3 (amended): the BetweenFactor constructor keeps the measured
pose; when the rotation-block trace of the noise covariance is NaN
(std::isnan, not any non-finite value) the stored covariance is the input
with every rotation row and column zeroed and the translation block kept
unchanged, and when the trace is not NaN (finite or infinite) the
covariance is stored unmodified. -/
theorem betweenFactor_nan_trace_amended (M : MatF6) (p : Pose3Q) :
    (fromBetweenF p M).pose = p ∧
      (fromBetweenF p M).covariance_matrix =
        (if (traceRot M).isnan then zeroKeepTrans M else M) ∧
      (∀ i j : Fin 6, i.val < 3 ∨ j.val < 3 → zeroKeepTrans M i j = FP.fin 0) ∧
      (∀ i j : Fin 6, 3 ≤ i.val → 3 ≤ j.val → zeroKeepTrans M i j = M i j) := by
  refine ⟨rfl, rfl, ?_, ?_⟩
  · intro i j h
    unfold zeroKeepTrans
    rw [if_neg]
    rintro ⟨h1, h2⟩
    rcases h with h | h <;> omega
  · intro i j h1 h2
    unfold zeroKeepTrans
    rw [if_pos ⟨h1, h2⟩]

/-- Witness for claim C3 (amended) at the concrete NaN-trace covariance
covNan: the stored covariance is the zeroed-except-translation matrix, its
rotation corner is zero, and its translation corner is the input entry. -/
theorem betweenFactor_nan_trace_amended_witness :
    (fromBetweenF Pose3Q.one covNan).covariance_matrix = zeroKeepTrans covNan ∧
      zeroKeepTrans covNan 0 0 = FP.fin 0 ∧
      zeroKeepTrans covNan 3 3 = covNan 3 3 := by
  refine ⟨?_, ?_, ?_⟩
  · have h := (betweenFactor_nan_trace_amended covNan Pose3Q.one).2.1
    rw [h, if_pos (by decide)]
  · exact (betweenFactor_nan_trace_amended covNan Pose3Q.one).2.2.1 0 0 (Or.inl (by decide))
  · exact (betweenFactor_nan_trace_amended covNan Pose3Q.one).2.2.2 3 3 (by decide) (by decide)

/-- The square root of the self dot product is the Euclidean norm (L2),
for 6-vectors. -/
theorem sqrt_dot_eq_norm6 (v : Fin 6 → ℝ) :
    Real.sqrt (v ⬝ᵥ v) = euclideanNormR6 v := by
  unfold euclideanNormR6
  rw [EuclideanSpace.norm_eq]
  congr 1
  simp [Matrix.dotProduct, Real.norm_eq_abs, sq_abs, WithLp.equiv_symm_pi_apply, pow_two]

/-- The Eigen translation norm is the Euclidean norm of the cast vector. -/
theorem transNormQ_eq_euclidean (t : Fin 3 → ℚ) :
    transNormQ t = euclideanNormR3 (fun i => (t i : ℝ)) := by
  unfold transNormQ euclideanNormR3
  rw [EuclideanSpace.norm_eq]
  congr 1
  refine Finset.sum_congr rfl fun x _ => ?_
  rw [WithLp.equiv_symm_pi_apply]
  rw [Real.norm_eq_abs, sq_abs]

/-- Claim C4: for every Logmap and every PoseWithCovariance A, norm(A) is
the Mahalanobis norm of the logarithm map of the pose against the inverse
of the own covariance of A; and for every PoseWithDistance A, norm(A) is
the plain Euclidean norm of the logarithm map divided by the accumulated
distance of A. -/
theorem norm_is_mahalanobis :
    (∀ (L : Pose3Q → Fin 6 → ℝ) (A : PoseWithCovariance),
        PoseWithCovariance.norm L A =
          mahalanobisNorm (L A.pose) (qMatToR A.covariance_matrix)) ∧
      (∀ (L : Pose3Q → Fin 6 → ℝ) (D : PoseWithDistance),
        PoseWithDistance.norm L D = euclideanNormR6 (L D.pose) / D.distance) := by
  constructor
  · intro L A
    rfl
  · intro L D
    unfold PoseWithDistance.norm
    rw [sqrt_dot_eq_norm6]

/-- Claim C9: composing accumulates the Euclidean norm of the translation
of the second operand (not the stored distance of the second operand);
inversion keeps the distance; between takes the absolute difference of the
stored distances.  The final conjunct separates the accumulated translation
norm from the stored distance at a concrete input. -/
theorem distance_arithmetic :
    (∀ A B : PoseWithDistance,
        (A.compose B).distance = A.distance + transNormQ B.pose.trans) ∧
      (∀ A : PoseWithDistance, A.inverse.distance = A.distance) ∧
      (∀ A B : PoseWithDistance,
        (A.between B).distance = |B.distance - A.distance|) ∧
      (∀ t : Fin 3 → ℚ, transNormQ t = euclideanNormR3 (fun i => (t i : ℝ))) ∧
      (∃ A B : PoseWithDistance, (A.compose B).distance ≠ A.distance + B.distance) := by
  refine ⟨fun A B => rfl, fun A => rfl, fun A B => rfl, transNormQ_eq_euclidean, ?_⟩
  refine ⟨⟨Pose3Q.one, 0⟩, ⟨Pose3Q.one, 1⟩, ?_⟩
  show (0 : ℝ) + transNormQ Pose3Q.one.trans ≠ 0 + 1
  have hz : transNormQ Pose3Q.one.trans = 0 := by
    unfold transNormQ Pose3Q.one
    simp
  rw [hz]
  norm_num

/-- Claim C10: the prior-factor constructors give accumulated distance 0
and an all-zero covariance (as does the default constructor); the zero
covariance has determinant 0 and is not invertible, and the
distance-normalised norm of a prior-constructed pose divides by the stored
distance 0 — the public interface guards neither. -/
theorem norm_unguarded_preconditions (p : Pose3Q) :
    (PoseWithDistance.fromPrior p).distance = 0 ∧
      (PoseWithCovariance.fromPrior p).covariance_matrix = 0 ∧
      PoseWithCovariance.defaultCtor.covariance_matrix = 0 ∧
      PoseWithDistance.defaultCtor.distance = 0 ∧
      (PoseWithCovariance.fromPrior p).covariance_matrix.det = 0 ∧
      ¬ IsUnit ((PoseWithCovariance.fromPrior p).covariance_matrix.det) ∧
      (∀ L : Pose3Q → Fin 6 → ℝ,
        PoseWithDistance.norm L (PoseWithDistance.fromPrior p) =
          Real.sqrt (L p ⬝ᵥ L p) / 0) := by
  have hcov : (PoseWithCovariance.fromPrior p).covariance_matrix = 0 := rfl
  have hdet : (PoseWithCovariance.fromPrior p).covariance_matrix.det = 0 := by
    rw [hcov]
    exact Matrix.det_eq_zero_of_row_eq_zero 0 (fun _ => rfl)
  refine ⟨rfl, rfl, rfl, rfl, hdet, ?_, fun L => rfl⟩
  rw [hdet]
  simp

/-- Counterexample to claim C5: under the spec-modelled loadGraph pipeline,
a trajectory of 50 odometry edges plus one node prior (thresholds 0 and 10,
all loop-closure residuals above 10) yields 51 accepted factors, not 50;
50 accepted factors correspond to 49 odometry edges, the 50-node trajectory
of the regression dataset. -/
theorem load_fifty_odometry_cex :
    (loadGraphCounts 50 [11, 12, 13] 0 10).1 = 51 ∧
      (loadGraphCounts 50 [11, 12, 13] 0 10).1 ≠ 50 ∧
      (loadGraphCounts 50 [11, 12, 13] 0 10).2 = 0 := by decide

/-- Claim C5 (amended): loading a 50-node trajectory (49 odometry edges)
plus one node prior with odometry threshold 0 and loop-closure threshold
10, where every offered loop-closure candidate has residual norm above 10,
yields exactly 50 accepted factors (odometry plus prior) and admits zero
loop closures. -/
theorem load_graph_counts_amended (lcs : List ℚ) (h : ∀ r ∈ lcs, 10 < r) :
    loadGraphCounts 49 lcs 0 10 = (50, 0) := by
  have hf : lcs.filter (fun r => decide (r ≤ (10 : ℚ))) = [] := by
    rw [List.filter_eq_nil_iff]
    intro a ha
    simpa using not_le.mpr (h a ha)
  unfold loadGraphCounts
  rw [hf]
  norm_num

/-- Witness for claim C5 (amended) at a concrete candidate list whose
residual norms all exceed the loop-closure threshold. -/
theorem load_graph_counts_amended_witness :
    loadGraphCounts 49 [11, 12, 13] 0 10 = (50, 0) :=
  load_graph_counts_amended [11, 12, 13] (by decide)
